import Mathlib

/-!
Verification development for the background-worker script (main.py): a
process that fetches the USD/UAH exchange rate from the NBU public API
and forwards it as an analytics event to a GA4 collector, on an hourly
schedule.

The Python source is shallowly embedded:
- HTTP interactions (requests.get / requests.post) are modelled by their
  observable outcomes, supplied as inputs (a transport error, or a
  completed response carrying a parsed body / status code).
- Logging is modelled by a writer component: each function returns its
  value together with the list of log messages it emits, each message an
  element of an inductive type tagging the concrete logging call in the
  source, with its level.
- The uuid4 generator is modelled as a stream of draws indexed by call
  order; the CLIENT_ID default draw is index 0 (Python evaluates the
  os.getenv default eagerly), each send's session id is a later draw.
- The scheduling loop of main() is modelled twice, at two granularities
  faithful to the same source lines: a timing model (run_pending with a
  1-second sleep against an hourly schedule, per the schedule library's
  documented cadence which the spec also states) and an exception model
  (the try/except around the loop body).
-/

namespace BackgroundWorker

/-- JSON values, as needed for the collector payload built in
send_event_to_ga4: strings, integers (timestamp_micros), numbers
(the rate), arrays and objects. -/
inductive Json where
  | str (s : String)
  | int (n : Int)
  | num (q : Rat)
  | arr (elems : List Json)
  | obj (fields : List (String × Json))

/-- Field access on a JSON object (first binding wins), none on
non-objects: the shape-inspection primitive used to state payload
properties. -/
def Json.lookup (j : Json) (key : String) : Option Json :=
  match j with
  | .obj fields => List.lookup key fields
  | _ => none

/-- Severity levels of the logging calls in main.py. -/
inductive LogLevel where
  | info
  | warning
  | error
deriving DecidableEq

/-- One tag per logging call site in main.py, carrying the data
interpolated into the message. -/
inductive LogMsg where
  | fetchedRate (rate : Option Rat)
  | usdNotFound
  | fetchError
  | sendingEvent (rate : Rat)
  | responseStatus (code : Nat)
  | eventSentSuccess
  | sendFailed (code : Nat)
  | sendError
  | startingJob
  | couldNotFetch
  | workerStarted
  | stoppedByUser
  | unexpectedError
deriving DecidableEq

/-- The level each call site logs at, read off the logging.info /
logging.warning / logging.error call in the source. -/
def LogMsg.level : LogMsg → LogLevel
  | .fetchedRate _ => .info
  | .usdNotFound => .warning
  | .fetchError => .error
  | .sendingEvent _ => .info
  | .responseStatus _ => .info
  | .eventSentSuccess => .info
  | .sendFailed _ => .error
  | .sendError => .error
  | .startingJob => .info
  | .couldNotFetch => .error
  | .workerStarted => .info
  | .stoppedByUser => .info
  | .unexpectedError => .error

/-- One entry of the NBU exchange response array. item.get of a key
returns none when the key is absent; a cc value that is not the string
compared against behaves like a different string, so cc is modelled as
an optional string and rate as an optional number. -/
structure Record where
  cc : Option String
  rate : Option Rat
deriving DecidableEq

/-- Observable outcome of the GET in get_uah_usd_rate: either a
requests.exceptions.RequestException (timeout, connection error, the
HTTPError of raise_for_status on a non-2xx status, or a JSON decode
error - all caught by the same except clause), or a successfully parsed
array of records. -/
inductive FetchOutcome where
  | transportError
  | success (data : List Record)
deriving DecidableEq

/-- The scan loop of get_uah_usd_rate over the parsed array: return the
first record whose cc field equals USD together with the info log,
or fall through to the warning. -/
def findUsd : List Record → Option Rat × List LogMsg
  | [] => (none, [.usdNotFound])
  | r :: rs =>
    if r.cc = some "USD" then (r.rate, [.fetchedRate r.rate])
    else findUsd rs

/-- get_uah_usd_rate: on a RequestException, log the error and return
none; on a parsed response, scan for the USD record. Returns the rate
(if any) paired with the emitted log messages. -/
def get_uah_usd_rate : FetchOutcome → Option Rat × List LogMsg
  | .transportError => (none, [.fetchError])
  | .success data => findUsd data

/-- Observable outcome of the POST in send_event_to_ga4: a
RequestException, or a completed response with a status code. -/
inductive PostOutcome where
  | transportError
  | completed (status : Nat)
deriving DecidableEq

/-- Ambient inputs of one send_event_to_ga4 call: the process client
id, the uuid4 draw taken for session_id, the wall clock read for
timestamp_micros, and how the POST turns out. -/
structure SendEnv where
  client_id : String
  session_id : String
  timestamp_micros : Int
  post : PostOutcome
deriving DecidableEq

/-- The payload dict literal of send_event_to_ga4, transcribed key by
key. -/
def mkPayload (cid : String) (ts : Int) (rate : Rat) (sid : String) : Json :=
  .obj [("client_id", .str cid),
        ("timestamp_micros", .int ts),
        ("events", .arr [.obj
          [("name", .str "uah_usd_rate"),
           ("params", .obj
             [("rate", .num rate),
              ("engagement_time_msec", .str "100"),
              ("session_id", .str sid)])]])]

/-- requests.post as seen by the caller: raises on transport failure,
otherwise yields the status code. -/
def requestsPost : PostOutcome → Except Unit Nat
  | .transportError => .error ()
  | .completed c => .ok c

/-- send_event_to_ga4: build the payload, POST it inside try/except.
A 204 status logs success, any other status logs a failure error, a
RequestException logs an error; the except clause absorbs the raise, so
the function always returns (payload constructed, logs emitted) to its
caller. -/
def send_event_to_ga4 (env : SendEnv) (rate : Rat) : Json × List LogMsg :=
  let payload := mkPayload env.client_id env.timestamp_micros rate env.session_id
  match requestsPost env.post with
  | .ok code =>
    (payload, [.sendingEvent rate, .responseStatus code] ++
      (if code = 204 then [.eventSentSuccess] else [.sendFailed code]))
  | .error _ => (payload, [.sendingEvent rate, .sendError])

/-- job: fetch the rate; if it is not None, invoke send_event_to_ga4
with it, else log the error. The first component is some payload
exactly when send_event_to_ga4 was invoked (with that payload). -/
def job (f : FetchOutcome) (env : SendEnv) : Option Json × List LogMsg :=
  let fr := get_uah_usd_rate f
  match fr.1 with
  | some r =>
    let sr := send_event_to_ga4 env r
    (some sr.1, .startingJob :: fr.2 ++ sr.2)
  | none => (none, .startingJob :: fr.2 ++ [.couldNotFetch])

/-- Timing state of the main loop: current wall-clock second, the
schedule library's next-run time for the hourly job, and the times the
job has executed (most recent first). -/
structure SchedState where
  now : Nat
  nextRun : Nat
  runs : List Nat
deriving DecidableEq

/-- One iteration of the while loop on its normal path:
schedule.run_pending executes the job when its next-run time has
arrived (rescheduling it one hour from now, per the schedule library),
then time.sleep(1) advances the clock. -/
def schedTick (s : SchedState) : SchedState :=
  if s.nextRun ≤ s.now then
    { now := s.now + 1, nextRun := s.now + 3600, runs := s.now :: s.runs }
  else
    { s with now := s.now + 1 }

/-- State right after main's setup at time t0:
schedule.every().hour.do(job) arms the job one hour ahead, and the
direct job() call executes it immediately at t0. -/
def mainStart (t0 : Nat) : SchedState :=
  { now := t0, nextRun := t0 + 3600, runs := [t0] }

/-- The loop state after n iterations of the while loop. -/
def schedIter (t0 n : Nat) : SchedState :=
  schedTick^[n] (mainStart t0)

/-- The job executes during iteration n exactly when run_pending sees
the next-run time reached. -/
def jobDue (t0 n : Nat) : Prop :=
  (schedIter t0 n).nextRun ≤ (schedIter t0 n).now

/-- What one iteration of the while loop body encounters: a normal
pass, a KeyboardInterrupt, or any other exception escaping the job
boundary. -/
inductive LoopEvent where
  | ok
  | interrupt
  | unexpected
deriving DecidableEq

/-- Whether the loop keeps going after an iteration. -/
inductive LoopStatus where
  | running
  | stopped
deriving DecidableEq

/-- Exception handling of one while-loop iteration, transcribed from
the try/except: a normal pass sleeps 1 second; KeyboardInterrupt logs
and breaks; any other exception logs the error and sleeps 60 seconds
before the next iteration. Returns (status, seconds slept, logs). -/
def loopIteration : LoopEvent → LoopStatus × Nat × List LogMsg
  | .ok => (.running, 1, [])
  | .interrupt => (.stopped, 0, [.stoppedByUser])
  | .unexpected => (.running, 60, [.unexpectedError])

/-- The while loop run against a stream of iteration events: it stops
only when an iteration reports stopped, and runs on (forever, on any
finite prefix) otherwise. -/
def runLoop : List LoopEvent → LoopStatus
  | [] => .running
  | e :: es =>
    match (loopIteration e).1 with
    | .stopped => .stopped
    | .running => runLoop es

/-- One process run: the optional CLIENT_ID environment variable and
the stream of uuid4 draws in call order. -/
structure ProcessRun where
  clientIdEnv : Option String
  uuidStream : Nat → String

/-- CLIENT_ID = os.getenv with a uuid4 default: Python evaluates the
default eagerly, so draw 0 is taken at startup and used only when the
environment variable is absent; the value never changes afterwards. -/
def CLIENT_ID (p : ProcessRun) : String :=
  p.clientIdEnv.getD (p.uuidStream 0)

/-- The ambient inputs of the k-th send of a process run (0-indexed):
the process CLIENT_ID, and a fresh uuid4 draw (index k+1, after the
startup draw) for session_id. -/
def sendEnvAt (p : ProcessRun) (k : Nat) (ts : Int) (post : PostOutcome) : SendEnv :=
  { client_id := CLIENT_ID p
    session_id := p.uuidStream (k + 1)
    timestamp_micros := ts
    post := post }

/-- Extract the session_id of the single event of a collector payload,
following the path events[0].params.session_id. -/
def payloadSession (j : Json) : Option Json :=
  match j.lookup "events" with
  | some (.arr [ev]) =>
    match ev.lookup "params" with
    | some ps => ps.lookup "session_id"
    | _ => none
  | _ => none

/-- Modelled from the spec: the collector JSON body shape of section 6,
stated through field lookups, for comparison with the payload the code
builds. -/
def specCollectorBody (j : Json) (cid : String) (ts : Int) (rate : Rat) (sid : String) : Prop :=
  j.lookup "client_id" = some (.str cid) ∧
  j.lookup "timestamp_micros" = some (.int ts) ∧
  ∃ ev, j.lookup "events" = some (.arr [ev]) ∧
    ev.lookup "name" = some (.str "uah_usd_rate") ∧
    ∃ ps, ev.lookup "params" = some ps ∧
      ps.lookup "rate" = some (.num rate) ∧
      ps.lookup "engagement_time_msec" = some (.str "100") ∧
      ps.lookup "session_id" = some (.str sid)

/-! Helper lemmas shared by the claim theorems. -/

/-- The payload component of send_event_to_ga4 is the dict literal,
whatever the POST outcome. -/
theorem send_fst (env : SendEnv) (rate : Rat) :
    (send_event_to_ga4 env rate).1 =
      mkPayload env.client_id env.timestamp_micros rate env.session_id := by
  cases h : env.post <;> simp [send_event_to_ga4, requestsPost, h]

/-- The payload component of job is the fetched rate mapped through
send_event_to_ga4. -/
theorem job_fst (f : FetchOutcome) (env : SendEnv) :
    (job f env).1 =
      ((get_uah_usd_rate f).1).map (fun r => (send_event_to_ga4 env r).1) := by
  unfold job
  cases h : (get_uah_usd_rate f).1 <;> simp [h]

/-- The scan returns the designated USD record's rate field when that
record is the only one carrying code USD. -/
theorem findUsd_first (data : List Record) (r : Record)
    (hmem : r ∈ data) (hcc : r.cc = some "USD")
    (huniq : ∀ s ∈ data, s.cc = some "USD" → s = r) :
    findUsd data = (r.rate, [.fetchedRate r.rate]) := by
  induction data with
  | nil => cases hmem
  | cons a tl ih =>
    by_cases ha : a.cc = some "USD"
    · have haR : a = r := huniq a (List.mem_cons_self a tl) ha
      subst haR
      simp [findUsd, ha]
    · have hmem' : r ∈ tl := by
        cases hmem with
        | head => exact absurd hcc ha
        | tail _ h => exact h
      simp only [findUsd, if_neg ha]
      exact ih hmem' (fun s hs => huniq s (List.mem_cons_of_mem a hs))

/-- The scan falls through to the warning when no record carries code
USD. -/
theorem findUsd_none (data : List Record)
    (h : ∀ r ∈ data, ¬ r.cc = some "USD") :
    findUsd data = (none, [.usdNotFound]) := by
  induction data with
  | nil => rfl
  | cons a tl ih =>
    have ha := h a (List.mem_cons_self a tl)
    simp only [findUsd, if_neg ha]
    exact ih (fun r hr => h r (List.mem_cons_of_mem a hr))

/-! Claim theorems. -/

/-- C1: for every fetch response that is a JSON array containing the
record with currency code USD, get_uah_usd_rate returns exactly that
record's rate field value, regardless of the ordering of records or the
presence of records with other currency codes. -/
theorem fetch_returns_usd_rate (data : List Record) (r : Record) (v : Rat)
    (hmem : r ∈ data) (hcc : r.cc = some "USD")
    (huniq : ∀ s ∈ data, s.cc = some "USD" → s = r)
    (hrate : r.rate = some v) :
    (get_uah_usd_rate (.success data)).1 = some v := by
  simp [get_uah_usd_rate, findUsd_first data r hmem hcc huniq, hrate]

/-- Witness for C1: an EUR record ahead of the USD record, fetch
returns the USD record's rate. -/
theorem fetch_returns_usd_rate_witness :
    (⟨some "USD", some 41⟩ : Record) ∈
      [(⟨some "EUR", some 40⟩ : Record), ⟨some "USD", some 41⟩] ∧
    (get_uah_usd_rate
      (.success [⟨some "EUR", some 40⟩, ⟨some "USD", some 41⟩])).1
      = some 41 :=
  ⟨by decide,
   fetch_returns_usd_rate [⟨some "EUR", some 40⟩, ⟨some "USD", some 41⟩]
     ⟨some "USD", some 41⟩ 41 (by decide) (by decide) (by decide) (by decide)⟩

/-- C2: an analytics event is constructed and handed to
send_event_to_ga4 exactly when the fetch returned a non-null rate, and
the payload sent is built from that rate; no event is ever sent
carrying a missing rate. -/
theorem job_sends_iff_rate (f : FetchOutcome) (env : SendEnv) :
    (job f env).1 =
      ((get_uah_usd_rate f).1).map (fun r => (send_event_to_ga4 env r).1) ∧
    ((job f env).1.isSome ↔ ((get_uah_usd_rate f).1).isSome) := by
  refine ⟨job_fst f env, ?_⟩
  rw [job_fst]
  cases (get_uah_usd_rate f).1 <;> simp

/-- Witness for C2 at a concrete fetch outcome and send environment. -/
theorem job_sends_iff_rate_witness :
    (job (.success [⟨some "USD", some 41⟩])
        ⟨"cid", "sid", 7, .completed 204⟩).1 =
      ((get_uah_usd_rate (.success [⟨some "USD", some 41⟩])).1).map
        (fun r => (send_event_to_ga4 ⟨"cid", "sid", 7, .completed 204⟩ r).1) ∧
    ((job (.success [⟨some "USD", some 41⟩])
        ⟨"cid", "sid", 7, .completed 204⟩).1.isSome ↔
      ((get_uah_usd_rate (.success [⟨some "USD", some 41⟩])).1).isSome) :=
  job_sends_iff_rate _ _

/-- C5: on a transport-level failure of the GET (timeout, connection
error, or the HTTPError raised for a non-2xx status), get_uah_usd_rate
logs an error and returns none instead of raising, and the job invokes
no send in that run. -/
theorem fetch_transport_error_absorbed (env : SendEnv) :
    (get_uah_usd_rate .transportError).1 = none ∧
    LogMsg.fetchError ∈ (get_uah_usd_rate .transportError).2 ∧
    LogMsg.fetchError.level = .error ∧
    (job .transportError env).1 = none := by
  refine ⟨rfl, by simp [get_uah_usd_rate], rfl, ?_⟩
  rw [job_fst]
  rfl

/-- Witness for C5 at a concrete send environment. -/
theorem fetch_transport_error_absorbed_witness :
    (get_uah_usd_rate .transportError).1 = none ∧
    LogMsg.fetchError ∈ (get_uah_usd_rate .transportError).2 ∧
    LogMsg.fetchError.level = .error ∧
    (job .transportError ⟨"cid", "sid", 7, .completed 204⟩).1 = none :=
  fetch_transport_error_absorbed _

/-- C6: on a parsed response in which no record carries code USD,
get_uah_usd_rate logs the warning and returns none. -/
theorem fetch_no_usd_warns (data : List Record)
    (h : ∀ r ∈ data, ¬ r.cc = some "USD") :
    (get_uah_usd_rate (.success data)).1 = none ∧
    LogMsg.usdNotFound ∈ (get_uah_usd_rate (.success data)).2 ∧
    LogMsg.usdNotFound.level = .warning := by
  have key := findUsd_none data h
  exact ⟨by simp [get_uah_usd_rate, key], by simp [get_uah_usd_rate, key], rfl⟩

/-- Witness for C6: the spec's scenario of an EUR-only response. -/
theorem fetch_no_usd_warns_witness :
    (∀ r ∈ [(⟨some "EUR", some 40⟩ : Record)], ¬ r.cc = some "USD") ∧
    ((get_uah_usd_rate (.success [⟨some "EUR", some 40⟩])).1 = none ∧
      LogMsg.usdNotFound ∈ (get_uah_usd_rate (.success [⟨some "EUR", some 40⟩])).2 ∧
      LogMsg.usdNotFound.level = .warning) :=
  ⟨by decide, fetch_no_usd_warns _ (by decide)⟩

/-- C10: on a parsed response whose USD record lacks a rate field,
get_uah_usd_rate returns none without logging the missing-record
warning, and the job sends no event. -/
theorem fetch_usd_missing_rate (data : List Record) (r : Record) (env : SendEnv)
    (hmem : r ∈ data) (hcc : r.cc = some "USD") (hrate : r.rate = none)
    (huniq : ∀ s ∈ data, s.cc = some "USD" → s = r) :
    (get_uah_usd_rate (.success data)).1 = none ∧
    LogMsg.usdNotFound ∉ (get_uah_usd_rate (.success data)).2 ∧
    (job (.success data) env).1 = none := by
  have key := findUsd_first data r hmem hcc huniq
  refine ⟨?_, ?_, ?_⟩
  · simp [get_uah_usd_rate, key, hrate]
  · simp [get_uah_usd_rate, key]
  · rw [job_fst]
    simp [get_uah_usd_rate, key, hrate]

/-- Witness for C10: a USD record with no rate field. -/
theorem fetch_usd_missing_rate_witness :
    (⟨some "USD", none⟩ : Record) ∈ [(⟨some "USD", none⟩ : Record)] ∧
    ((get_uah_usd_rate (.success [⟨some "USD", none⟩])).1 = none ∧
      LogMsg.usdNotFound ∉ (get_uah_usd_rate (.success [⟨some "USD", none⟩])).2 ∧
      (job (.success [⟨some "USD", none⟩]) ⟨"cid", "sid", 7, .completed 204⟩).1 = none) :=
  ⟨by decide,
   fetch_usd_missing_rate [⟨some "USD", none⟩] ⟨some "USD", none⟩
     ⟨"cid", "sid", 7, .completed 204⟩
     (by decide) (by decide) (by decide) (by decide)⟩

/-- The loop keeps running over any finite stream of iterations none of
which is a KeyboardInterrupt. -/
theorem runLoop_running (es : List LoopEvent)
    (h : ∀ e ∈ es, e ≠ LoopEvent.interrupt) : runLoop es = .running := by
  induction es with
  | nil => rfl
  | cons e tl ih =>
    have he := h e (List.mem_cons_self e tl)
    cases e with
    | ok => exact ih (fun x hx => h x (List.mem_cons_of_mem _ hx))
    | interrupt => exact absurd rfl he
    | unexpected => exact ih (fun x hx => h x (List.mem_cons_of_mem _ hx))

/-- The session_id of the single event of the payload dict literal. -/
theorem payloadSession_mkPayload (cid : String) (ts : Int) (rate : Rat) (sid : String) :
    payloadSession (mkPayload cid ts rate sid) = some (.str sid) := rfl

/-- C3: an unexpected exception escaping the job boundary is logged as
an error and makes the loop sleep 60 seconds while staying in the
running state, and a loop fed any stream of iterations free of
interrupts (however many unexpected errors it contains) never
terminates. -/
theorem loop_absorbs_unexpected (es : List LoopEvent)
    (h : ∀ e ∈ es, e ≠ LoopEvent.interrupt) :
    loopIteration .unexpected = (.running, 60, [LogMsg.unexpectedError]) ∧
    LogMsg.unexpectedError.level = .error ∧
    runLoop es = .running :=
  ⟨rfl, rfl, runLoop_running es h⟩

/-- Witness for C3: a stream with two unexpected errors and no
interrupt keeps running. -/
theorem loop_absorbs_unexpected_witness :
    (∀ e ∈ [LoopEvent.unexpected, LoopEvent.ok, LoopEvent.unexpected],
      e ≠ LoopEvent.interrupt) ∧
    (loopIteration .unexpected = (.running, 60, [LogMsg.unexpectedError]) ∧
     LogMsg.unexpectedError.level = .error ∧
     runLoop [LoopEvent.unexpected, LoopEvent.ok, LoopEvent.unexpected] = .running) :=
  ⟨by decide, loop_absorbs_unexpected _ (by decide)⟩

/-- C4: on a completed POST, send_event_to_ga4 logs success exactly
when the status is 204 and logs a failure error exactly otherwise; and
on every outcome, the transport-error case included, the function
returns its payload-and-logs pair to the caller instead of raising. -/
theorem send_outcome_logged (env : SendEnv) (rate : Rat) :
    (∃ logs, send_event_to_ga4 env rate =
      (mkPayload env.client_id env.timestamp_micros rate env.session_id, logs)) ∧
    (match env.post with
     | .completed c =>
       (LogMsg.eventSentSuccess ∈ (send_event_to_ga4 env rate).2 ↔ c = 204) ∧
       (LogMsg.sendFailed c ∈ (send_event_to_ga4 env rate).2 ↔ ¬ c = 204) ∧
       (LogMsg.sendFailed c).level = .error
     | .transportError =>
       LogMsg.sendError ∈ (send_event_to_ga4 env rate).2 ∧
       LogMsg.sendError.level = .error) := by
  constructor
  · refine ⟨(send_event_to_ga4 env rate).2, ?_⟩
    rw [← send_fst env rate]
  · cases h : env.post with
    | transportError => simp [send_event_to_ga4, requestsPost, h, LogMsg.level]
    | completed c =>
      by_cases hc : c = 204 <;>
        simp [send_event_to_ga4, requestsPost, h, hc, LogMsg.level]

/-- Witness for C4 at a non-204 completed POST. -/
theorem send_outcome_logged_witness :
    (∃ logs, send_event_to_ga4 ⟨"cid", "sid", 7, .completed 500⟩ 41 =
      (mkPayload "cid" 7 41 "sid", logs)) ∧
    ((LogMsg.eventSentSuccess ∈
        (send_event_to_ga4 ⟨"cid", "sid", 7, .completed 500⟩ 41).2 ↔ 500 = 204) ∧
     (LogMsg.sendFailed 500 ∈
        (send_event_to_ga4 ⟨"cid", "sid", 7, .completed 500⟩ 41).2 ↔ ¬ 500 = 204) ∧
     (LogMsg.sendFailed 500).level = .error) :=
  send_outcome_logged ⟨"cid", "sid", 7, .completed 500⟩ 41

/-- C8: the payload posted by send_event_to_ga4 is exactly the dict
literal of the source and refines the collector body shape of spec
section 6: a client_id string, an integer timestamp_micros read at send
time, and one event named uah_usd_rate whose params carry the rate, the
fixed string 100 as engagement_time_msec, and the session id. -/
theorem send_payload_matches_spec (env : SendEnv) (rate : Rat) :
    (send_event_to_ga4 env rate).1 =
      mkPayload env.client_id env.timestamp_micros rate env.session_id ∧
    specCollectorBody (send_event_to_ga4 env rate).1
      env.client_id env.timestamp_micros rate env.session_id := by
  refine ⟨send_fst env rate, ?_⟩
  rw [send_fst]
  unfold specCollectorBody
  refine ⟨rfl, rfl, _, rfl, rfl, _, rfl, rfl, rfl, rfl⟩

/-- Witness for C8 at a concrete send environment. -/
theorem send_payload_matches_spec_witness :
    (send_event_to_ga4 ⟨"cid", "sid", 7, .completed 204⟩ 41).1 =
      mkPayload "cid" 7 41 "sid" ∧
    specCollectorBody (send_event_to_ga4 ⟨"cid", "sid", 7, .completed 204⟩ 41).1
      "cid" 7 41 "sid" :=
  send_payload_matches_spec ⟨"cid", "sid", 7, .completed 204⟩ 41

/-- C9: across any two sends of one process run, the payloads carry the
same client_id (the one fixed at startup), while the session ids
differ, the uuid draws being fresh (distinct draws of the stream). -/
theorem client_stable_session_fresh (p : ProcessRun) (k l : Nat)
    (ts ts2 : Int) (post post2 : PostOutcome) (r r2 : Rat)
    (hinj : Function.Injective p.uuidStream) (hkl : k ≠ l) :
    ((send_event_to_ga4 (sendEnvAt p k ts post) r).1.lookup "client_id" =
        some (.str (CLIENT_ID p)) ∧
      (send_event_to_ga4 (sendEnvAt p l ts2 post2) r2).1.lookup "client_id" =
        some (.str (CLIENT_ID p))) ∧
    payloadSession (send_event_to_ga4 (sendEnvAt p k ts post) r).1 ≠
      payloadSession (send_event_to_ga4 (sendEnvAt p l ts2 post2) r2).1 := by
  rw [send_fst, send_fst]
  refine ⟨⟨rfl, rfl⟩, ?_⟩
  rw [payloadSession_mkPayload, payloadSession_mkPayload]
  intro h
  have hs : p.uuidStream (k + 1) = p.uuidStream (l + 1) := by
    have h1 := Option.some.inj h
    exact Json.str.inj h1
  exact hkl (Nat.succ.inj (hinj hs))

/-- A stream of pairwise distinct strings: the n-th draw is the string
of n repeated characters. -/
def distinctStream : Nat → String := fun n => String.mk (List.replicate n 'a')

/-- distinctStream is injective: the draws have pairwise distinct
lengths. -/
theorem distinctStream_inj : Function.Injective distinctStream := by
  intro a b h
  have hdata : List.replicate a 'a' = List.replicate b 'a' :=
    congrArg String.data h
  have hlen := congrArg List.length hdata
  simpa using hlen

/-- Witness for C9: sends 0 and 1 of a process run with distinct uuid
draws. -/
theorem client_stable_session_fresh_witness :
    (0 : Nat) ≠ 1 ∧
    (((send_event_to_ga4 (sendEnvAt ⟨some "cid", distinctStream⟩ 0 5 (.completed 204)) 41).1.lookup
          "client_id" = some (.str (CLIENT_ID ⟨some "cid", distinctStream⟩)) ∧
      (send_event_to_ga4 (sendEnvAt ⟨some "cid", distinctStream⟩ 1 6 .transportError) 42).1.lookup
          "client_id" = some (.str (CLIENT_ID ⟨some "cid", distinctStream⟩))) ∧
     payloadSession
        (send_event_to_ga4 (sendEnvAt ⟨some "cid", distinctStream⟩ 0 5 (.completed 204)) 41).1 ≠
      payloadSession
        (send_event_to_ga4 (sendEnvAt ⟨some "cid", distinctStream⟩ 1 6 .transportError) 42).1) :=
  ⟨by decide,
   client_stable_session_fresh ⟨some "cid", distinctStream⟩ 0 1 5 6
     (.completed 204) .transportError 41 42 distinctStream_inj (by decide)⟩

/-- While the next-run time lies ahead, iterating the loop only
advances the clock. -/
theorem schedTick_idle : ∀ (j u w : Nat) (runs : List Nat), u + j ≤ w →
    schedTick^[j] ⟨u, w, runs⟩ = ⟨u + j, w, runs⟩ := by
  intro j
  induction j with
  | zero => intro u w runs _; simp
  | succ n ih =>
    intro u w runs hle
    rw [Function.iterate_succ_apply]
    have hcond : ¬ (w ≤ u) := by omega
    have hstep : schedTick ⟨u, w, runs⟩ = ⟨u + 1, w, runs⟩ := by
      simp [schedTick, hcond]
    rw [hstep, ih (u + 1) w runs (by omega)]
    have harith : u + 1 + n = u + (n + 1) := by omega
    rw [harith]

/-- From a state whose next-run time has just arrived, 3600 iterations
execute the job once and land on the next arrival. -/
theorem schedTick_cycle (u : Nat) (runs : List Nat) :
    schedTick^[3600] ⟨u, u, runs⟩ = ⟨u + 3600, u + 3600, u :: runs⟩ := by
  have hsplit : (3600 : Nat) = 3599 + 1 := rfl
  rw [hsplit, Function.iterate_add_apply, Function.iterate_one]
  have hstep : schedTick ⟨u, u, runs⟩ = ⟨u + 1, u + 3600, u :: runs⟩ := by
    simp [schedTick]
  rw [hstep, schedTick_idle 3599 (u + 1) (u + 3600) (u :: runs) (by omega)]

/-- At every positive multiple of 3600 iterations, the loop stands
exactly at a job arrival time. -/
theorem schedIter_mul (t0 : Nat) : ∀ k, 1 ≤ k →
    ∃ runs, schedIter t0 (3600 * k) =
      ⟨t0 + 3600 * k, t0 + 3600 * k, runs⟩ := by
  intro k
  induction k with
  | zero => intro h; omega
  | succ n ih =>
    intro _
    cases Nat.eq_zero_or_pos n with
    | inl hn =>
      subst hn
      refine ⟨[t0], ?_⟩
      show schedTick^[3600 * 1] (mainStart t0) = _
      have h1 : 3600 * 1 = 3600 := by omega
      rw [h1]
      rw [show mainStart t0 = (⟨t0, t0 + 3600, [t0]⟩ : SchedState) from rfl]
      rw [schedTick_idle 3600 t0 (t0 + 3600) [t0] (by omega)]
    | inr hn =>
      obtain ⟨runs, hruns⟩ := ih hn
      refine ⟨(t0 + 3600 * n) :: runs, ?_⟩
      show schedTick^[3600 * (n + 1)] (mainStart t0) = _
      have hsplit : 3600 * (n + 1) = 3600 + 3600 * n := by ring
      rw [hsplit, Function.iterate_add_apply]
      rw [show schedTick^[3600 * n] (mainStart t0) = schedIter t0 (3600 * n) from rfl,
        hruns, schedTick_cycle]
      have harith : t0 + (3600 + 3600 * n) = t0 + 3600 * n + 3600 := by ring
      rw [harith]

/-- run_pending executes the job during iteration n exactly when n is a
positive multiple of 3600 seconds. -/
theorem jobDue_iff (t0 n : Nat) : jobDue t0 n ↔ (0 < n ∧ 3600 ∣ n) := by
  obtain ⟨k, j, hj, hn⟩ : ∃ k j, j < 3600 ∧ n = 3600 * k + j :=
    ⟨n / 3600, n % 3600, Nat.mod_lt _ (by omega), by omega⟩
  subst hn
  cases Nat.eq_zero_or_pos k with
  | inl hk =>
    subst hk
    have hclosed : schedIter t0 (3600 * 0 + j) = ⟨t0 + j, t0 + 3600, [t0]⟩ := by
      show schedTick^[3600 * 0 + j] (mainStart t0) = _
      have h0 : 3600 * 0 + j = j := by omega
      rw [h0, show mainStart t0 = (⟨t0, t0 + 3600, [t0]⟩ : SchedState) from rfl,
        schedTick_idle j t0 (t0 + 3600) [t0] (by omega)]
    unfold jobDue
    rw [hclosed]
    show t0 + 3600 ≤ t0 + j ↔ _
    omega
  | inr hk =>
    obtain ⟨runs, hruns⟩ := schedIter_mul t0 k hk
    cases Nat.eq_zero_or_pos j with
    | inl hj0 =>
      subst hj0
      unfold jobDue
      have h0 : 3600 * k + 0 = 3600 * k := by omega
      rw [h0, hruns]
      show t0 + 3600 * k ≤ t0 + 3600 * k ↔ _
      omega
    | inr hj1 =>
      have hclosed : schedIter t0 (3600 * k + j) =
          ⟨t0 + 3600 * k + j, t0 + 3600 * k + 3600, (t0 + 3600 * k) :: runs⟩ := by
        show schedTick^[3600 * k + j] (mainStart t0) = _
        have hsplit : 3600 * k + j = j + 3600 * k := by omega
        rw [hsplit, Function.iterate_add_apply,
          show schedTick^[3600 * k] (mainStart t0) = schedIter t0 (3600 * k) from rfl,
          hruns]
        obtain ⟨m, hm⟩ : ∃ m, j = m + 1 := ⟨j - 1, by omega⟩
        subst hm
        rw [Function.iterate_succ_apply]
        have hstep : schedTick ⟨t0 + 3600 * k, t0 + 3600 * k, runs⟩ =
            ⟨t0 + 3600 * k + 1, t0 + 3600 * k + 3600, (t0 + 3600 * k) :: runs⟩ := by
          simp [schedTick]
        rw [hstep, schedTick_idle m (t0 + 3600 * k + 1) (t0 + 3600 * k + 3600)
          ((t0 + 3600 * k) :: runs) (by omega)]
        have harith : t0 + 3600 * k + (m + 1) = t0 + 3600 * k + 1 + m := by omega
        rw [harith]
      unfold jobDue
      rw [hclosed]
      show t0 + 3600 * k + 3600 ≤ t0 + 3600 * k + j ↔ _
      omega

/-- C7: at startup, main executes the job once immediately (the runs
list of the initial state already holds time t0), and thereafter
run_pending triggers the job exactly once per elapsed hour of the loop:
iteration n fires the job precisely when n is a positive multiple of
3600 one-second ticks. -/
theorem startup_immediate_then_hourly (t0 n : Nat) :
    (mainStart t0).runs = [t0] ∧
    (jobDue t0 n ↔ (0 < n ∧ 3600 ∣ n)) :=
  ⟨rfl, jobDue_iff t0 n⟩

/-- Witness for C7 at t0 = 0, n = 3600. -/
theorem startup_immediate_then_hourly_witness :
    (mainStart 0).runs = [0] ∧
    (jobDue 0 3600 ↔ (0 < 3600 ∧ 3600 ∣ 3600)) :=
  startup_immediate_then_hourly 0 3600

end BackgroundWorker
